import Mathlib

/-!
Verification development for the GPU lattice decoder core
(src/decoder/cuda-lattice-decoder.cu and src/decoder/cuda-lattice-decoder.h).

The CUDA code is shallowly embedded: device floats (BaseFloat/CostType) are
modelled by the type `Fl` below, a rational-valued IEEE-style value with
distinguished NaN and signed infinities (rounding and overflow of finite
operations are not modelled; none of the verified properties depend on them);
device arrays become Lean lists or functions; the per-thread atomic loops are
sequentialized, with explicit interleaving models where the property under
study is about concurrent schedules.
-/

namespace CudaLatticeDecoder

/-- A model of an IEEE floating-point value: NaN, +inf, -inf, or a finite
rational. -/
inductive Fl where
  | nan : Fl
  | inf : Fl
  | ninf : Fl
  | fin : ℚ → Fl
deriving DecidableEq, Repr

/-- IEEE negation on the float model. -/
def Fl.neg : Fl → Fl
  | .nan => .nan
  | .inf => .ninf
  | .ninf => .inf
  | .fin q => .fin (-q)

/-- IEEE addition on the float model: NaN propagates, inf + (-inf) is NaN. -/
def Fl.add : Fl → Fl → Fl
  | .nan, _ => .nan
  | _, .nan => .nan
  | .inf, .ninf => .nan
  | .ninf, .inf => .nan
  | .inf, _ => .inf
  | _, .inf => .inf
  | .ninf, _ => .ninf
  | _, .ninf => .ninf
  | .fin a, .fin b => .fin (a + b)

/-- IEEE subtraction on the float model. -/
def Fl.sub (a b : Fl) : Fl := a.add b.neg

/-- The `isnan` predicate of the float model. -/
def Fl.isNan : Fl → Bool
  | .nan => true
  | _ => false

/-- IEEE `<=` comparison: any comparison against NaN is false. -/
def Fl.leB : Fl → Fl → Bool
  | .nan, _ => false
  | _, .nan => false
  | .ninf, _ => true
  | _, .inf => true
  | .inf, _ => false
  | _, .ninf => false
  | .fin a, .fin b => decide (a ≤ b)

/-- IEEE `<` comparison: any comparison against NaN is false. -/
def Fl.ltB : Fl → Fl → Bool
  | .nan, _ => false
  | _, .nan => false
  | .inf, _ => false
  | .ninf, .ninf => false
  | .ninf, _ => true
  | _, .inf => true
  | _, .ninf => false
  | .fin a, .fin b => decide (a < b)

/-- The value of the C constant FLT_MAX, the largest finite single-precision
float, used by `LatticeProcessor::PruneLatticeForFrame` to re-initialize
`extra_cost`. -/
def fltMax : ℚ := (2 - 2 ^ (23 : ℕ) / 2 ^ (46 : ℕ)) * 2 ^ (127 : ℕ)

/-- The Token record of cuda-lattice-decoder.h: accumulated path cost `cost_`,
creation frame, and the `extra_cost` used by lattice pruning.  The C struct
also carries a `state_id` field, which the constructor leaves uninitialized
and which no embedded operation reads, so it is omitted here. -/
structure Token where
  cost : Fl
  frame : ℤ
  extraCost : Fl
deriving DecidableEq, Repr

instance : Inhabited Token := ⟨⟨.nan, 0, .nan⟩⟩

/-- The Token constructor of cuda-lattice-decoder.h (lines 186-192):
`Token(BaseFloat cost, int32 frame, Token* prev)` sets `cost_ = cost`,
adds `prev->cost_` when `prev` is non-null, and initializes
`extra_cost` to 0. -/
def Token.mkToken (cost : Fl) (frame : ℤ) (prev : Option Token) : Token :=
  { cost := match prev with
      | some p => cost.add p.cost
      | none => cost
    frame := frame
    extraCost := .fin 0 }

/-- Modelled from the spec: the `LatLinkCompact` record lives in
cuda-decoder-utils.h, which is not part of the provided sources.  The spec
gives its attributes: previous TokenState id, next TokenState id, pre-scaled
acoustic cost, and the arc id into the static graph; the frames of the two
endpoints are derived in `PruneLatticeForFrame` from the current frame and
`IsEmitArc()`, which we carry as the boolean `isEmit`. -/
structure LatLinkCompact where
  prevTokId : ℕ
  nextTokId : ℕ
  isEmit : Bool
  acousticCost : Fl
  arcId : ℕ
deriving DecidableEq, Repr

/-- The exploded LatLink of cuda-lattice-decoder.h, as materialized by
`LatticeProcessor::AddArc(LatLinkCompact*, int32 frame)`: both endpoints as
(frame, id) pairs plus the graph-derived ilabel, olabel and graph weight. -/
structure LatLink where
  prevTokId : ℕ
  prevFrame : ℕ
  nextTokId : ℕ
  nextFrame : ℕ
  ilabel : ℤ
  olabel : ℤ
  graphCost : Fl
  acousticCost : Fl
deriving DecidableEq, Repr

/-- The token slabs touched by `PruneLatticeForFrame(frame)`: the tokens of
frame-1 (`toksPrev`) and of the current frame (`toksCur`), each indexed the
way `GetActiveToken(frame, id)` indexes the arena slab of one frame. -/
structure PruneState where
  toksPrev : List Token
  toksCur : List Token
deriving DecidableEq, Repr

/-- `GetActiveToken` restricted to the two slabs of `PruneState`:
`useCur` selects the current frame's slab. -/
def getTok (s : PruneState) (useCur : Bool) (id : ℕ) : Token :=
  if useCur then s.toksCur.getD id default else s.toksPrev.getD id default

/-- Overwrite the `extra_cost` of the token `id` of the selected slab
(the effect of the `atomic_min` store in `PruneLatticeForFrame`). -/
def setExtra (s : PruneState) (useCur : Bool) (id : ℕ) (v : Fl) : PruneState :=
  if useCur then
    { s with toksCur := s.toksCur.set id { s.toksCur.getD id default with extraCost := v } }
  else
    { s with toksPrev := s.toksPrev.set id { s.toksPrev.getD id default with extraCost := v } }

/-- The `extra_cost` currently stored for token `id` of the selected slab. -/
def extraAt (s : PruneState) (useCur : Bool) (id : ℕ) : Fl :=
  (getTok s useCur id).extraCost

/-- The number of tokens in the selected slab. -/
def slabLen (s : PruneState) (useCur : Bool) : ℕ :=
  if useCur then s.toksCur.length else s.toksPrev.length

/-- The link extra cost computed twice in `PruneLatticeForFrame`
(cuda-lattice-decoder.cu lines 1159-1161 and 1188-1190):
`next_tok->extra_cost + ((tok->cost_ + link->acoustic_cost +
arc_weights[link->arc_id]) - next_tok->cost_)`, where the previous token
is read from frame-1 for an emitting arc and from the current frame
otherwise. -/
def linkExtraCost (w : ℕ → Fl) (s : PruneState) (l : LatLinkCompact) : Fl :=
  let nextTok := getTok s true l.nextTokId
  let prevTok := getTok s (!l.isEmit) l.prevTokId
  nextTok.extraCost.add (((prevTok.cost.add l.acousticCost).add (w l.arcId)).sub nextTok.cost)

/-- The survival test of `PruneLatticeForFrame` (lines 1162 and 1191):
`!isnan(link_extra_cost) && link_extra_cost <= lattice_beam`. -/
def arcSurvives (w : ℕ → Fl) (beam : ℚ) (s : PruneState) (l : LatLinkCompact) : Bool :=
  !(linkExtraCost w s l).isNan && (linkExtraCost w s l).leB (.fin beam)

/-- One arc of the iterative extra-cost update loop of `PruneLatticeForFrame`
(lines 1152-1174): when the arc survives, a `link_extra_cost < -1` is clamped
to `lattice_beam / 2` (after a debug printf), and the (possibly clamped)
value is atomic-min-ed into the previous token's `extra_cost` under the
`link_extra_cost < tok->extra_cost` guard; the returned flag records whether
a write happened (the `modified` request for another iteration). -/
def pruneArcUpdate (w : ℕ → Fl) (beam : ℚ) (s : PruneState) (l : LatLinkCompact) :
    PruneState × Bool :=
  let le := linkExtraCost w s l
  if !le.isNan && le.leB (.fin beam) then
    let le2 := if le.ltB (.fin (-1)) then Fl.fin (beam / 2) else le
    if le2.ltB (extraAt s (!l.isEmit) l.prevTokId) then
      (setExtra s (!l.isEmit) l.prevTokId le2, true)
    else (s, false)
  else (s, false)

/-- Modelled from the spec (error-handling section): the claim that a negative
link-extra-cost is a debug-only `InvariantViolation` assertion that aborts.
This specification-shaped variant of the arc step returns `none` (abort) when
the link extra cost is negative, and otherwise performs the plain min-update
with no clamping; it exists only to be compared against `pruneArcUpdate`. -/
def pruneArcUpdateClaimC8 (w : ℕ → Fl) (beam : ℚ) (s : PruneState) (l : LatLinkCompact) :
    Option (PruneState × Bool) :=
  let le := linkExtraCost w s l
  if le.ltB (.fin 0) then none
  else if !le.isNan && le.leB (.fin beam) then
    if le.ltB (extraAt s (!l.isEmit) l.prevTokId) then
      some (setExtra s (!l.isEmit) l.prevTokId le, true)
    else some (s, false)
  else some (s, false)

/-- `LatticeProcessor::AddArc(LatLinkCompact*, int32 frame)` (lines 1001-1009):
explode a compact arc, recovering ilabel, olabel and graph weight from the
static graph tables, with the previous frame `frame-1` for an emitting arc
and `frame` otherwise. -/
def explodeArc (il ol : ℕ → ℤ) (w : ℕ → Fl) (frame : ℕ) (l : LatLinkCompact) : LatLink :=
  { prevTokId := l.prevTokId
    prevFrame := if l.isEmit then frame - 1 else frame
    nextTokId := l.nextTokId
    nextFrame := frame
    ilabel := il l.arcId
    olabel := ol l.arcId
    graphCost := w l.arcId
    acousticCost := l.acousticCost }

/-- The final aggregate pass of `PruneLatticeForFrame` (lines 1180-1201):
every arc of the frame whose link extra cost is not NaN and at most
`lattice_beam` is appended (via the atomic counter of `AddArc`) to the
output arena as an exploded `LatLink`. -/
def aggregatePass (il ol : ℕ → ℤ) (w : ℕ → Fl) (beam : ℚ) (frame : ℕ)
    (s : PruneState) (arcs : List LatLinkCompact) : List LatLink :=
  arcs.foldl
    (fun out l =>
      if !(linkExtraCost w s l).isNan && (linkExtraCost w s l).leB (.fin beam) then
        out ++ [explodeArc il ol w frame l]
      else out)
    []

/-- The initialization block of `PruneLatticeForFrame` (lines 1124-1129):
`extra_cost` of every token of frame-1 is set to FLT_MAX before the update
iterations run. -/
def pruneInitExtra (s : PruneState) : PruneState :=
  { s with toksPrev := s.toksPrev.map fun t => { t with extraCost := .fin fltMax } }

/-- The TokenState record used by the .cu file: a graph state, the allocator
index `tok_idx_allocated` of its Token in the arena, and the 64-bit
recombination pack `token_pack`.  The pack is modelled as a natural number. -/
structure TokenStateM where
  state : ℕ
  tokIdxAllocated : ℕ
  tokenPack : ℕ
deriving DecidableEq, Repr

/-- Modelled from the spec: `unpack_idx_from_uint64` lives in
cuda-decoder-utils.h, which is not part of the provided sources.  The spec
defines the pack as `(negated_cost << 32) | arc_slot_index`, so the arc-slot
index is the low 32 bits. -/
def unpackIdx (pack : ℕ) : ℕ := pack % 2 ^ 32

/-- `LatticeProcessor::GetTokenByExactIdx` (lines 908-916), release branch:
an index at or past the token-buffer size is clamped to the last slot. -/
def clampIdx (bufSize idx : ℕ) : ℕ := if idx < bufSize then idx else bufSize - 1

/-- The mutable state of `CudaMergeVector<TokenState>::StoreDataByPackIdx`:
the Token arena (`toks_bpr_d`, addressed through `GetTokenByExactIdx`), the
per-arc temporary update flags `temp_data_buf_update`, and the per-slot
`mem_update_d` byte array. -/
structure StoreState where
  arena : ℕ → Token
  tempUpdated : ℕ → Bool
  memUpdate : ℕ → Bool

/-- One slot of `StoreDataByPackIdx` (lines 773-784): decode the arc-slot
index from the slot's pack, record the temporary flag into `mem_update_d`,
and when it was set, clear it and copy the temporary Token into the arena
Token bound to the slot via `tok_idx_allocated`. -/
def storeStep (tempData : ℕ → Token) (tokBufSize : ℕ) (st : StoreState)
    (i : ℕ) (ts : TokenStateM) : StoreState :=
  let idx := unpackIdx ts.tokenPack
  let st1 := { st with memUpdate := fun j => if j = i then st.tempUpdated idx else st.memUpdate j }
  if st.tempUpdated idx then
    { st1 with
      tempUpdated := fun k => if k = idx then false else st.tempUpdated k
      arena := fun k =>
        if k = clampIdx tokBufSize ts.tokIdxAllocated then tempData idx else st.arena k }
  else st1

/-- The full loop of `StoreDataByPackIdx`: slot `i` runs over `0..size` of
the merge vector (here the list of TokenStates), each slot transformed by
`storeStep`.  The device loop is parallel over `tid`, but each slot is
touched exactly once; the sequential order models the linearization of the
read-then-clear of `temp_data_buf_update`. -/
def storeDataByPackIdx (tempData : ℕ → Token) (tokBufSize : ℕ) :
    StoreState → ℕ → List TokenStateM → StoreState
  | st, _, [] => st
  | st, i, ts :: rest =>
      storeDataByPackIdx tempData tokBufSize (storeStep tempData tokBufSize st i ts) (i + 1) rest

/-- The per-frame lookup structure of `_find_or_add_token_arc`
(cuda-lattice-decoder.cu lines 88-142), linearized at the per-slot
compare-and-swap: `lookup s = none` models `LOOKUP_DEACTIVE`, and
`lookup s = some i` models a slot holding the recorded `tokenstate_idx`
(the spin on `LOOKUP_READY_PUSH` hides the transient claiming state).
`curToks` records the states of the pushed TokenStates in push order. -/
structure LookupFrame where
  lookup : ℕ → Option ℕ
  curToks : List ℕ

/-- One linearized `_find_or_add_token_arc` activation for state `s`: the
CAS winner pushes a fresh TokenState onto `cur_toks` and records its index
in the lookup slot; every other caller reuses the recorded index. -/
def findOrAddToken (st : LookupFrame) (s : ℕ) : LookupFrame × ℕ :=
  match st.lookup s with
  | some i => (st, i)
  | none =>
      let idx := st.curToks.length
      ({ lookup := fun s2 => if s2 = s then some idx else st.lookup s2
         curToks := st.curToks ++ [s] }, idx)

/-- The lookup table as `_initialize_all_states` leaves it at the start of a
frame: every slot `LOOKUP_DEACTIVE` and no TokenState pushed yet. -/
def initLookupFrame : LookupFrame := ⟨fun _ => none, []⟩

/-- A frame's worth of activations: run `_find_or_add_token_arc` for each
requested next-state in sequence, starting from the reset lookup table. -/
def runFindOrAdd (reqs : List ℕ) : LookupFrame :=
  reqs.foldl (fun st s => (findOrAddToken st s).1) initLookupFrame

/-- The static-graph and configuration inputs of `_find_best_cutoff`
(lines 168-230): the CSR emitting-arc offsets, arc tables, the acoustic
log-likelihood table, and the beam / histogram configuration.  Costs are
finite here (the NaN path plays no role in these claims), so they are plain
rationals. -/
structure CutoffParams where
  eOffsets : ℕ → ℕ
  arcILabels : ℕ → ℕ
  arcWeights : ℕ → ℚ
  loglikes : ℕ → ℚ
  beam : ℚ
  cutoffPrev : ℚ
  maxActive : ℕ
  frame : ℕ

/-- A source token of `prev_toks` as Phase A reads it: its graph state and
the cost of its arena Token. -/
structure PrevTok where
  state : ℕ
  cost : ℚ
deriving DecidableEq, Repr

/-- The emitting out-arc indices `j` of state `s`:
`e_offsets[s] .. e_offsets[s+1]`. -/
def arcRange (p : CutoffParams) (s : ℕ) : List ℕ :=
  List.range' (p.eOffsets s) (p.eOffsets (s + 1) - p.eOffsets s)

/-- The Phase A candidate cutoff of one emitting arc (lines 217-219):
`tok->cost_ + arc_weights[j] + (-loglikelihoods[arc_ilabels[j]]) + beam`. -/
def emitTotal (p : CutoffParams) (tok : PrevTok) (j : ℕ) : ℚ :=
  tok.cost + p.arcWeights j + (-p.loglikes (p.arcILabels j)) + p.beam

/-- The source-token skip test used in BOTH Phase A (line 198) and Phase B
(line 256): `size > max_active && tok->cost_ > *cutoff_prev`.  Note the
absence of any frame condition. -/
def skippedTok (p : CutoffParams) (size : ℕ) (tok : PrevTok) : Bool :=
  decide (size > p.maxActive) && decide (tok.cost > p.cutoffPrev)

/-- The guard under which `_find_best_cutoff` computes the histogram-derived
`cutoff_prev` (line 177): `size > max_active && frame > 1`. -/
def histogramPrevComputed (p : CutoffParams) (size : ℕ) : Bool :=
  decide (size > p.maxActive) && decide (p.frame > 1)

/-- The per-token contribution to the Phase A local cutoff: a skipped token
contributes nothing; otherwise each emitting out-arc's total is min-ed in. -/
def tokenLocalCutoff (p : CutoffParams) (size : ℕ) (acc : WithTop ℚ) (tok : PrevTok) :
    WithTop ℚ :=
  if skippedTok p size tok then acc
  else (arcRange p tok.state).foldl (fun a j => min a ((emitTotal p tok j : ℚ) : WithTop ℚ)) acc

/-- `_find_best_cutoff` sequentialized: the per-worker local minima over all
dispatched tokens, combined by atomic-min into the incoming global cutoff
`cutoff0` (INFINITY is the top element, making the `local_cutoff != INFINITY`
guard a no-op). -/
def findBestCutoff (p : CutoffParams) (prevToks : List PrevTok) (cutoff0 : WithTop ℚ) :
    WithTop ℚ :=
  min cutoff0 (prevToks.foldl (tokenLocalCutoff p prevToks.length) ⊤)

/-- The claim-shaped variant of the per-token skip, following the claim's
words: a token is skipped only when `size > max_active` AND `frame > 1`
(and its cost exceeds `cutoff_prev`).  It exists only to be compared with
`skippedTok` / `findBestCutoff`. -/
def skippedTokClaimC3 (p : CutoffParams) (size : ℕ) (tok : PrevTok) : Bool :=
  decide (size > p.maxActive) && decide (p.frame > 1) && decide (tok.cost > p.cutoffPrev)

/-- The claim-shaped Phase A cutoff using `skippedTokClaimC3`. -/
def findBestCutoffClaimC3 (p : CutoffParams) (prevToks : List PrevTok)
    (cutoff0 : WithTop ℚ) : WithTop ℚ :=
  min cutoff0
    (prevToks.foldl
      (fun acc tok =>
        if skippedTokClaimC3 p prevToks.length tok then acc
        else (arcRange p tok.state).foldl
          (fun a j => min a ((emitTotal p tok j : ℚ) : WithTop ℚ)) acc)
      ⊤)

/-- The observable state of a `CudaVector`: the stored count and the element
buffer (elements are modelled as naturals; the payload is irrelevant to the
capacity claims). -/
structure VecState where
  count : ℕ
  mem : ℕ → ℕ

/-- The all-zero vector state after `Clear()`. -/
def initVec : VecState := ⟨0, fun _ => 0⟩

/-- `CudaVector<T>::PushBack`, device branch without `__DEBUG__`
(lines 618-635): the slot index is obtained by atomic increment, the count
is clamped to `max_size - 1` when it reaches `max_size`, and the element is
stored at the obtained index (even out of bounds), which is returned. -/
def pushBackRelease (maxSize : ℕ) (st : VecState) (val : ℕ) : VecState × ℕ :=
  let idx := st.count
  let c1 := st.count + 1
  let c2 := if c1 ≥ maxSize then maxSize - 1 else c1
  (⟨c2, fun j => if j = idx then val else st.mem j⟩, idx)

/-- `CudaVector<T>::PushBack`, device branch with `__DEBUG__`: after the
atomic increment, `assert(*count_d < max_size)`; a failed device assertion
aborts the kernel, modelled as `none`. -/
def pushBackDebug (maxSize : ℕ) (st : VecState) (val : ℕ) : Option (VecState × ℕ) :=
  let idx := st.count
  let c1 := st.count + 1
  if c1 < maxSize then some (⟨c1, fun j => if j = idx then val else st.mem j⟩, idx) else none

/-- The fault kind the spec's error-handling section attributes to a push
that would exceed a configured ceiling, carrying the ceiling and the frame. -/
inductive PushFault where
  | capacityExceeded (ceiling : ℕ) (frame : ℕ)
deriving DecidableEq, Repr

/-- Modelled from the spec (error-handling section and scenario S6): a push
on a full vector returns a CapacityExceeded fault naming the ceiling and the
current frame; otherwise the element is appended normally.  It exists only
to be compared with `pushBackRelease` / `pushBackDebug`. -/
def pushBackCheckedClaimC5 (maxSize frame : ℕ) (st : VecState) (val : ℕ) :
    Except PushFault (VecState × ℕ) :=
  if st.count + 1 > maxSize then .error (.capacityExceeded maxSize frame)
  else .ok (⟨st.count + 1, fun j => if j = st.count then val else st.mem j⟩, st.count)

/-- A sequence of release-mode pushes, collecting the returned indices. -/
def runPushesRelease (maxSize : ℕ) (st : VecState) : List ℕ → VecState × List ℕ
  | [] => (st, [])
  | v :: vs =>
      let r := pushBackRelease maxSize st v
      let rest := runPushesRelease maxSize r.1 vs
      (rest.1, r.2 :: rest.2)

/-- A sequence of claim-shaped checked pushes, collecting the returned
indices; the first CapacityExceeded fault aborts the utterance. -/
def runPushesCheckedIdx (maxSize frame : ℕ) (st : VecState) :
    List ℕ → Except PushFault (List ℕ)
  | [] => .ok []
  | v :: vs =>
      match pushBackCheckedClaimC5 maxSize frame st v with
      | .error e => .error e
      | .ok (st2, i) =>
          match runPushesCheckedIdx maxSize frame st2 vs with
          | .error e => .error e
          | .ok is => .ok (i :: is)

/-- The interleaving state of several concurrent device `PushBack` calls:
the shared count and, per thread, the index obtained by its atomic
increment (if it has executed yet). -/
structure ConcPushState where
  count : ℕ
  fetched : ℕ → Option ℕ

/-- One atomic action of a concurrent `PushBack`: either thread `t`'s
`atomicAdd(count_d, 1)` or an (anonymous) execution of the release-mode
clamp `if (*count_d >= max_size) *count_d = max_size - 1`. -/
inductive PushAct where
  | inc (t : ℕ)
  | clamp
deriving DecidableEq, Repr

/-- Execute one atomic action. -/
def pushActStep (maxSize : ℕ) (st : ConcPushState) : PushAct → ConcPushState
  | .inc t => ⟨st.count + 1, fun u => if u = t then some st.count else st.fetched u⟩
  | .clamp => ⟨if st.count ≥ maxSize then maxSize - 1 else st.count, st.fetched⟩

/-- Execute a schedule of atomic actions from the empty-vector state. -/
def runPushSchedule (maxSize : ℕ) (acts : List PushAct) : ConcPushState :=
  acts.foldl (pushActStep maxSize) ⟨0, fun _ => none⟩

/-- The overflow schedule for `n` concurrent pushes: every thread executes
its atomic increment before any thread reaches its clamp.  Each thread
appears exactly once in each phase, so this is a legal interleaving of `n`
`PushBack` bodies. -/
def overflowSchedule (n : ℕ) : List PushAct :=
  (List.range n).map PushAct.inc ++ List.replicate n PushAct.clamp

/-- The Phase C do-while loop of `_process_tokens` (lines 485-510): the body
(one `_process_nonemitting_tokens` sweep, abstracted as a state transformer
returning its `modified` flag) runs at least once and repeats while the flag
fired and fewer than 10 iterations have run.  Returns the final state and
the number of body executions. -/
def closureGo (body : σ → σ × Bool) (st : σ) (cnt : ℕ) : σ × ℕ :=
  let r := body st
  let cnt2 := cnt + 1
  if r.2 = true ∧ cnt2 < 10 then closureGo body r.1 cnt2 else (r.1, cnt2)
termination_by 10 - cnt
decreasing_by omega

/-- Entry of the Phase C loop with `cnt = 0`. -/
def closureRun (body : σ → σ × Bool) (st : σ) : σ × ℕ := closureGo body st 0

/-- The back-pruning update loop of `PruneLatticeForFrame` (line 1141):
`while (cnt++ < 10 && *modified0 != 0)`.  The body (one sweep over the
frame's arcs) is abstracted as a state transformer returning the next
`modified` flag.  Returns the final state and the number of body
executions. -/
def pruneLoopGo (body : σ → σ × Bool) (st : σ) (m : Bool) (cnt : ℕ) : σ × ℕ :=
  if cnt < 10 ∧ m = true then
    let r := body st
    pruneLoopGo body r.1 r.2 (cnt + 1)
  else (st, cnt)
termination_by 10 - cnt
decreasing_by omega

/-- Entry of the back-pruning loop: the initialization block sets
`*modified0 = 1` (line 1131) and `cnt` starts at 0. -/
def pruneLoopRun (body : σ → σ × Bool) (st : σ) : σ × ℕ := pruneLoopGo body st true 0

/-- `_initialize_cutoff` (line 82): `*cutoff = 1e2`, i.e. the finite value
100, not INFINITY.  `_add_initial_token` runs it before the frame-0
non-emitting closure. -/
def initCutoffModel : WithTop ℚ := ((100 : ℚ) : WithTop ℚ)

/-- The cutoff value `*cutoff` holds at the end of every `_process_tokens`
launch (line 530): INFINITY, the top element. -/
def endOfFrameCutoff : WithTop ℚ := ⊤

/-- The keep test of the non-emitting closure (line 373):
`next_tok.cost_ <= cutoff`.  The configured beam does not appear. -/
def nonemitKeep (cutoff : WithTop ℚ) (pathCost : ℚ) : Bool :=
  decide ((pathCost : WithTop ℚ) ≤ cutoff)

/-! Helper lemmas. -/

theorem extraCost_set_getD (l : List Token) (i j : ℕ) (v : Fl) :
    ((l.set i { l.getD i default with extraCost := v }).getD j default).extraCost =
      if j = i ∧ i < l.length then v else (l.getD j default).extraCost := by
  by_cases hij : j = i
  · subst hij
    by_cases hi : j < l.length
    · simp [List.getD_eq_getElem?_getD, List.getElem?_set_self', hi]
    · rw [List.set_eq_of_length_le (by omega)]
      simp [hi]
  · simp [List.getD_eq_getElem?_getD, List.getElem?_set_ne (fun h => hij h.symm), hij]

theorem getTok_setExtra (s : PruneState) (b : Bool) (i : ℕ) (v : Fl) (b2 : Bool) (j : ℕ) :
    extraAt (setExtra s b i v) b2 j =
      if b2 = b ∧ j = i ∧ i < slabLen s b then v
      else extraAt s b2 j := by
  cases b <;> cases b2 <;>
    simp only [setExtra, extraAt, getTok, slabLen, Bool.false_eq_true, Bool.true_eq_false,
      if_true, if_false, ite_true, ite_false, false_and, and_false, if_neg, not_false_iff,
      extraCost_set_getD]
  all_goals simp

theorem closureGo_bounds {σ : Type u} (body : σ → σ × Bool) :
    ∀ (fuel cnt : ℕ) (st : σ), 10 ≤ cnt + fuel → cnt < 10 →
      (closureGo body st cnt).2 ≤ 10 ∧ cnt < (closureGo body st cnt).2 := by
  intro fuel
  induction fuel with
  | zero => intro cnt st h1 h2; omega
  | succ n ih =>
      intro cnt st h1 h2
      rw [closureGo]
      split
      · have h3 := ih (cnt + 1) (body st).1 (by omega) (by omega)
        exact ⟨h3.1, by omega⟩
      · exact ⟨by omega, by omega⟩

theorem pruneLoopGo_bounds {σ : Type u} (body : σ → σ × Bool) :
    ∀ (fuel cnt : ℕ) (m : Bool) (st : σ), 10 ≤ cnt + fuel → cnt ≤ 10 →
      (pruneLoopGo body st m cnt).2 ≤ 10 := by
  intro fuel
  induction fuel with
  | zero =>
      intro cnt m st h1 h2
      rw [pruneLoopGo]
      split
      · omega
      · exact h2
  | succ n ih =>
      intro cnt m st h1 h2
      rw [pruneLoopGo]
      split
      case isTrue h => exact ih (cnt + 1) _ _ (by omega) (by omega)
      case isFalse h => exact h2

theorem pruneLoopGo_no_update {σ : Type u} (body : σ → σ × Bool) (st : σ) (cnt : ℕ) :
    pruneLoopGo body st false cnt = (st, cnt) := by
  rw [pruneLoopGo]
  simp

theorem closureRun_stops {σ : Type u} (body : σ → σ × Bool) (st : σ)
    (h : (body st).2 = false) : closureRun body st = ((body st).1, 1) := by
  rw [closureRun, closureGo]
  simp [h]

/-! Theorems for the claims. -/

/-- C10: at utterance initialization `_initialize_cutoff` sets the beam
cutoff to 1e2 (100.0), not INFINITY, so the frame-0 non-emitting closure
discards every path whose cost exceeds 100 — the keep test
`next_tok.cost_ <= cutoff` does not involve the configured beam — and at
the end of every `_process_tokens` launch the cutoff is reset to INFINITY
before the next frame's Phase A recomputes it. -/
theorem c10_cutoff_initialized_to_100 :
    initCutoffModel = ((100 : ℚ) : WithTop ℚ) ∧
    initCutoffModel ≠ ⊤ ∧
    (∀ c : ℚ, 100 < c → nonemitKeep initCutoffModel c = false) ∧
    endOfFrameCutoff = ⊤ ∧
    (∀ c : ℚ, nonemitKeep endOfFrameCutoff c = true) := by
  refine ⟨rfl, by simp [initCutoffModel], ?_, rfl, ?_⟩
  · intro c hc
    simp only [nonemitKeep, initCutoffModel, decide_eq_false_iff_not, WithTop.coe_le_coe]
    exact not_le.mpr hc
  · intro c
    simp [nonemitKeep, endOfFrameCutoff]

/-- Witness for C10: the path cost 101 exceeds the initial cutoff 100 and is
discarded by the frame-0 closure. -/
theorem c10_cutoff_initialized_to_100_witness :
    (100 : ℚ) < 101 ∧ nonemitKeep initCutoffModel 101 = false :=
  ⟨by norm_num, c10_cutoff_initialized_to_100.2.2.1 101 (by norm_num)⟩

/-- C7: both iterative fixed-point loops are bounded by 10 iterations: the
Phase C non-emitting closure (a do-while) runs between 1 and 10 body sweeps
and stops as soon as no `modified` flag fired, and the back-pruning
extra-cost loop runs at most 10 body sweeps and stops as soon as no update
happened; both therefore terminate on every input. -/
theorem c7_fixed_point_loops_bounded :
    ∀ (σ : Type) (bodyC : σ → σ × Bool) (stC : σ) (bodyP : σ → σ × Bool) (stP : σ),
      1 ≤ (closureRun bodyC stC).2 ∧ (closureRun bodyC stC).2 ≤ 10 ∧
      (pruneLoopRun bodyP stP).2 ≤ 10 ∧
      ((bodyC stC).2 = false → closureRun bodyC stC = ((bodyC stC).1, 1)) ∧
      (∀ (s2 : σ) (cnt : ℕ), pruneLoopGo bodyP s2 false cnt = (s2, cnt)) := by
  intro σ bodyC stC bodyP stP
  have h1 : (closureRun bodyC stC).2 ≤ 10 ∧ 0 < (closureRun bodyC stC).2 :=
    closureGo_bounds bodyC 10 0 stC (by omega) (by omega)
  exact ⟨by have := h1.2; omega, h1.1,
    pruneLoopGo_bounds bodyP 10 0 true stP (by omega) (by omega),
    fun h => closureRun_stops bodyC stC h,
    fun s2 cnt => pruneLoopGo_no_update bodyP s2 cnt⟩

/-- Witness for C7: a body that never reports a modification makes the
closure loop stop after exactly one iteration. -/
theorem c7_fixed_point_loops_bounded_witness :
    (closureRun (fun s : ℕ => (s, false)) 0).2 ≤ 10 ∧
    closureRun (fun s : ℕ => (s, false)) 0 = (0, 1) := by
  have h := c7_fixed_point_loops_bounded ℕ (fun s => (s, false)) 0 (fun s => (s, false)) 0
  exact ⟨h.2.1, h.2.2.2.1 rfl⟩

/-- C6 counterexample: the Token constructor of cuda-lattice-decoder.h
initializes `extra_cost` to 0, not to plus infinity (and not to FLT_MAX):
the freshly created start token refutes the claim. -/
theorem c6_counterexample :
    (Token.mkToken (.fin 0) 0 none).extraCost = Fl.fin 0 ∧
    (Token.mkToken (.fin 0) 0 none).extraCost ≠ Fl.inf ∧
    (Token.mkToken (.fin 0) 0 none).extraCost ≠ Fl.fin fltMax := by
  refine ⟨rfl, by decide, ?_⟩
  simp only [Token.mkToken, ne_eq, Fl.fin.injEq]
  norm_num [fltMax]

/-- C6 amended: `extra_cost` is initialized to 0 by the Token constructor;
it is set to FLT_MAX for every frame-(t-1) token by the initialization block
of `PruneLatticeForFrame` before the update iterations, and each update step
of back-pruning either leaves an `extra_cost` unchanged or strictly
decreases it. -/
theorem c6_extra_cost_lifecycle :
    (∀ (c : Fl) (f : ℤ) (p : Option Token), (Token.mkToken c f p).extraCost = Fl.fin 0) ∧
    (∀ (s : PruneState) (id : ℕ), id < s.toksPrev.length →
      extraAt (pruneInitExtra s) false id = Fl.fin fltMax) ∧
    (∀ (w : ℕ → Fl) (beam : ℚ) (s : PruneState) (l : LatLinkCompact) (b : Bool) (id : ℕ),
      extraAt (pruneArcUpdate w beam s l).1 b id = extraAt s b id ∨
      (extraAt (pruneArcUpdate w beam s l).1 b id).ltB (extraAt s b id) = true) := by
  refine ⟨fun c f p => by cases p <;> rfl, ?_, ?_⟩
  · intro s id h
    have hsome : s.toksPrev[id]? = some s.toksPrev[id] := List.getElem?_eq_getElem h
    simp [extraAt, getTok, pruneInitExtra, List.getD_eq_getElem?_getD, List.getElem?_map, hsome]
  · intro w beam s l b id
    dsimp only [pruneArcUpdate]
    split
    · split
      · split
        · next h2 =>
            dsimp only
            rw [getTok_setExtra]
            split
            · next hcond =>
                right
                rw [hcond.1, hcond.2.1]
                exact h2
            · exact Or.inl rfl
        · exact Or.inl rfl
      · split
        · next h2 =>
            dsimp only
            rw [getTok_setExtra]
            split
            · next hcond =>
                right
                rw [hcond.1, hcond.2.1]
                exact h2
            · exact Or.inl rfl
        · exact Or.inl rfl
    · exact Or.inl rfl

/-- Witness for C6: a one-token frame-(t-1) slab whose token was created
with `extra_cost` 0 carries FLT_MAX after the back-pruning initialization. -/
theorem c6_extra_cost_lifecycle_witness :
    0 < (1 : ℕ) ∧
    extraAt (pruneInitExtra ⟨[Token.mkToken (.fin 0) 0 none], []⟩) false 0 = Fl.fin fltMax :=
  ⟨by norm_num,
    c6_extra_cost_lifecycle.2.1 ⟨[Token.mkToken (.fin 0) 0 none], []⟩ 0 (by norm_num)⟩

theorem Fl.ltB_isNan_false (a b : Fl) (h : a.ltB b = true) : a.isNan = false := by
  cases a <;> cases b <;> simp_all [Fl.ltB, Fl.isNan]

/-- C8 counterexample: a negative link-extra-cost does NOT abort.  At a
concrete arc whose link extra cost evaluates to -2, the claim-shaped step
(`pruneArcUpdateClaimC8`) aborts, while the code's step survives the arc,
clamps the value to `lattice_beam / 2` after a verbose printf, and performs
the min-update: the two differ. -/
theorem c8_counterexample :
    pruneArcUpdateClaimC8 (fun _ => Fl.fin 0) 1
        ⟨[⟨Fl.fin 0, 0, Fl.fin 5⟩], [⟨Fl.fin 2, 1, Fl.fin 0⟩]⟩ ⟨0, 0, true, Fl.fin 0, 0⟩ =
      none ∧
    some (pruneArcUpdate (fun _ => Fl.fin 0) 1
        ⟨[⟨Fl.fin 0, 0, Fl.fin 5⟩], [⟨Fl.fin 2, 1, Fl.fin 0⟩]⟩ ⟨0, 0, true, Fl.fin 0, 0⟩) ≠
      pruneArcUpdateClaimC8 (fun _ => Fl.fin 0) 1
        ⟨[⟨Fl.fin 0, 0, Fl.fin 5⟩], [⟨Fl.fin 2, 1, Fl.fin 0⟩]⟩ ⟨0, 0, true, Fl.fin 0, 0⟩ ∧
    (pruneArcUpdate (fun _ => Fl.fin 0) 1
        ⟨[⟨Fl.fin 0, 0, Fl.fin 5⟩], [⟨Fl.fin 2, 1, Fl.fin 0⟩]⟩ ⟨0, 0, true, Fl.fin 0, 0⟩).2 =
      true ∧
    extraAt (pruneArcUpdate (fun _ => Fl.fin 0) 1
        ⟨[⟨Fl.fin 0, 0, Fl.fin 5⟩], [⟨Fl.fin 2, 1, Fl.fin 0⟩]⟩ ⟨0, 0, true, Fl.fin 0, 0⟩).1
        false 0 = Fl.fin (1 / 2) := by
  refine ⟨?_, ?_, ?_, ?_⟩ <;>
    (norm_num [pruneArcUpdate, pruneArcUpdateClaimC8, linkExtraCost, getTok, extraAt, setExtra,
      Fl.add, Fl.sub, Fl.neg, Fl.ltB, Fl.isNan, Fl.leB];
     try exact fun h => Option.noConfusion h)

/-- C8 amended: a link-extra-cost below -1 detected during back-pruning is
handled by a verbose debug printf and clamped to `lattice_beam / 2` before
the atomic min-update; no assertion aborts the program, and the arc still
survives (its link extra cost is at most `lattice_beam`). -/
theorem c8_negative_link_extra_clamped :
    ∀ (w : ℕ → Fl) (beam : ℚ) (s : PruneState) (l : LatLinkCompact),
      (linkExtraCost w s l).ltB (Fl.fin (-1)) = true →
      (linkExtraCost w s l).leB (Fl.fin beam) = true →
      pruneArcUpdate w beam s l =
        (if (Fl.fin (beam / 2)).ltB (extraAt s (!l.isEmit) l.prevTokId) then
            (setExtra s (!l.isEmit) l.prevTokId (Fl.fin (beam / 2)), true)
          else (s, false)) := by
  intro w beam s l h1 h2
  simp only [pruneArcUpdate, Fl.ltB_isNan_false _ _ h1, h1, h2, Bool.not_false,
    Bool.and_self, if_true, ite_true]

/-- Witness for C8 amended: the concrete arc with link extra cost -2 takes
the clamped min-update branch. -/
theorem c8_negative_link_extra_clamped_witness :
    (linkExtraCost (fun _ => Fl.fin 0)
        ⟨[⟨Fl.fin 0, 0, Fl.fin 5⟩], [⟨Fl.fin 2, 1, Fl.fin 0⟩]⟩
        ⟨0, 0, true, Fl.fin 0, 0⟩).ltB (Fl.fin (-1)) = true ∧
    pruneArcUpdate (fun _ => Fl.fin 0) 1
        ⟨[⟨Fl.fin 0, 0, Fl.fin 5⟩], [⟨Fl.fin 2, 1, Fl.fin 0⟩]⟩ ⟨0, 0, true, Fl.fin 0, 0⟩ =
      (if (Fl.fin ((1 : ℚ) / 2)).ltB
            (extraAt ⟨[⟨Fl.fin 0, 0, Fl.fin 5⟩], [⟨Fl.fin 2, 1, Fl.fin 0⟩]⟩
              (!(⟨0, 0, true, Fl.fin 0, 0⟩ : LatLinkCompact).isEmit)
              (⟨0, 0, true, Fl.fin 0, 0⟩ : LatLinkCompact).prevTokId) then
          (setExtra ⟨[⟨Fl.fin 0, 0, Fl.fin 5⟩], [⟨Fl.fin 2, 1, Fl.fin 0⟩]⟩
              (!(⟨0, 0, true, Fl.fin 0, 0⟩ : LatLinkCompact).isEmit)
              (⟨0, 0, true, Fl.fin 0, 0⟩ : LatLinkCompact).prevTokId
              (Fl.fin ((1 : ℚ) / 2)), true)
        else (⟨[⟨Fl.fin 0, 0, Fl.fin 5⟩], [⟨Fl.fin 2, 1, Fl.fin 0⟩]⟩, false)) :=
  ⟨by norm_num [linkExtraCost, getTok, Fl.add, Fl.sub, Fl.neg, Fl.ltB],
    c8_negative_link_extra_clamped (fun _ => Fl.fin 0) 1
      ⟨[⟨Fl.fin 0, 0, Fl.fin 5⟩], [⟨Fl.fin 2, 1, Fl.fin 0⟩]⟩ ⟨0, 0, true, Fl.fin 0, 0⟩
      (by norm_num [linkExtraCost, getTok, Fl.add, Fl.sub, Fl.neg, Fl.ltB])
      (by norm_num [linkExtraCost, getTok, Fl.add, Fl.sub, Fl.neg, Fl.leB])⟩

/-- C5 counterexample: with `max_arcs_per_frame = 4` and five pushes at
frame 7, the claim-shaped checked push faults on the 5th push, but the
code's release-mode `PushBack` never faults: it returns the plain indices
[0, 1, 2, 3, 3], so its (fault-free) outcome differs from the claimed one. -/
theorem c5_counterexample :
    runPushesCheckedIdx 4 7 initVec [1, 2, 3, 4, 5] =
      Except.error (PushFault.capacityExceeded 4 7) ∧
    (runPushesRelease 4 initVec [1, 2, 3, 4, 5]).2 = [0, 1, 2, 3, 3] ∧
    Except.ok ((runPushesRelease 4 initVec [1, 2, 3, 4, 5]).2) ≠
      runPushesCheckedIdx 4 7 initVec [1, 2, 3, 4, 5] := by
  refine ⟨rfl, rfl, ?_⟩
  simp [show runPushesCheckedIdx 4 7 initVec [1, 2, 3, 4, 5] =
    Except.error (PushFault.capacityExceeded 4 7) from rfl]

/-- C5 amended: a push past the per-frame ceiling returns no fault.  In
release builds the 5th push with `max_size = 4` returns index 3, leaves the
count clamped at 3, and silently overwrites the last slot (the stored value
at index 3 is the 5th element); under `__DEBUG__` the device assertion
fires (already at the push that fills the vector) and aborts without
surfacing a ceiling name or frame; every release push returns the index
obtained by the atomic increment. -/
theorem c5_push_overflow_behavior :
    (runPushesRelease 4 initVec [1, 2, 3, 4, 5]).2 = [0, 1, 2, 3, 3] ∧
    (runPushesRelease 4 initVec [1, 2, 3, 4, 5]).1.count = 3 ∧
    (runPushesRelease 4 initVec [1, 2, 3, 4, 5]).1.mem 3 = 5 ∧
    pushBackDebug 4 ⟨3, fun _ => 0⟩ 9 = none ∧
    (∀ (maxSize : ℕ) (st : VecState) (v : ℕ), (pushBackRelease maxSize st v).2 = st.count) :=
  ⟨rfl, rfl, rfl, rfl, fun _ _ _ => rfl⟩

theorem foldl_clamps_fetched (m : ℕ) :
    ∀ (n : ℕ) (st : ConcPushState),
      (List.foldl (pushActStep m) st (List.replicate n PushAct.clamp)).fetched = st.fetched := by
  intro n
  induction n with
  | zero => intro st; rfl
  | succ k ih =>
      intro st
      rw [List.replicate_succ, List.foldl_cons]
      exact ih _

theorem foldl_incs_count (m : ℕ) :
    ∀ (ts : List ℕ) (st : ConcPushState),
      (List.foldl (pushActStep m) st (ts.map PushAct.inc)).count = st.count + ts.length := by
  intro ts
  induction ts with
  | nil => intro st; simp
  | cons t rest ih =>
      intro st
      rw [List.map_cons, List.foldl_cons, ih]
      simp [pushActStep]
      omega

theorem runPushSchedule_overflow (m : ℕ) :
    (runPushSchedule m (overflowSchedule (m + 1))).fetched m = some m := by
  unfold runPushSchedule overflowSchedule
  rw [List.foldl_append, foldl_clamps_fetched, List.range_succ, List.map_append,
    List.foldl_append]
  simp only [List.map_cons, List.map_nil, List.foldl_cons, List.foldl_nil]
  show (pushActStep m _ (PushAct.inc m)).fetched m = some m
  simp [pushActStep, foldl_incs_count]

/-- C9: release-mode device `PushBack` never fails: it returns the index
obtained by the atomic increment, stores the element there (also out of
bounds), clamps only the stored count to `max_size - 1`, and under the
concurrent schedule where all `max_size + 1` atomic increments precede the
capacity checks, the last push obtains (and therefore writes and returns)
the index `max_size`, one past the last valid slot. -/
theorem c9_release_push_no_fault_overflow :
    (∀ (maxSize : ℕ) (st : VecState) (v : ℕ),
      (pushBackRelease maxSize st v).2 = st.count ∧
      (pushBackRelease maxSize st v).1.mem st.count = v ∧
      (∀ j : ℕ, j ≠ st.count → (pushBackRelease maxSize st v).1.mem j = st.mem j) ∧
      (pushBackRelease maxSize st v).1.count =
        (if st.count + 1 ≥ maxSize then maxSize - 1 else st.count + 1)) ∧
    (∀ maxSize : ℕ,
      (runPushSchedule maxSize (overflowSchedule (maxSize + 1))).fetched maxSize =
        some maxSize) := by
  constructor
  · intro maxSize st v
    refine ⟨rfl, by simp [pushBackRelease], ?_, rfl⟩
    intro j hj
    simp [pushBackRelease, hj]
  · exact runPushSchedule_overflow

/-- Witness for C9: with capacity 2, a push leaves other slots untouched,
and the all-increments-first schedule of 3 pushes hands index 2 = max_size
to the last thread. -/
theorem c9_release_push_no_fault_overflow_witness :
    (1 : ℕ) ≠ 0 ∧ (pushBackRelease 2 initVec 5).1.mem 1 = initVec.mem 1 ∧
    (runPushSchedule 2 (overflowSchedule 3)).fetched 2 = some 2 :=
  ⟨by decide, (c9_release_push_no_fault_overflow.1 2 initVec 5).2.2.1 1 (by decide),
    c9_release_push_no_fault_overflow.2 2⟩

theorem findOrAddToken_preserves_inv (st : LookupFrame)
    (h1 : ∀ s i, st.lookup s = some i → st.curToks[i]? = some s)
    (h2 : ∀ s, s ∈ st.curToks → st.lookup s ≠ none)
    (h3 : ∀ s, st.curToks.count s ≤ 1) (s0 : ℕ) :
    (∀ s i, (findOrAddToken st s0).1.lookup s = some i →
      (findOrAddToken st s0).1.curToks[i]? = some s) ∧
    (∀ s, s ∈ (findOrAddToken st s0).1.curToks → (findOrAddToken st s0).1.lookup s ≠ none) ∧
    (∀ s, (findOrAddToken st s0).1.curToks.count s ≤ 1) := by
  unfold findOrAddToken
  cases hl : st.lookup s0 with
  | some i => exact ⟨h1, h2, h3⟩
  | none =>
      dsimp only
      refine ⟨?_, ?_, ?_⟩
      · intro s i h
        by_cases hs : s = s0
        · subst hs
          rw [if_pos rfl] at h
          cases h
          exact List.getElem?_concat_length st.curToks s
        · rw [if_neg hs] at h
          have hlt : i < st.curToks.length :=
            (List.getElem?_eq_some.mp (h1 s i h)).1
          rw [List.getElem?_append, if_pos hlt]
          exact h1 s i h
      · intro s hs
        by_cases hss : s = s0
        · subst hss
          simp
        · rw [if_neg hss]
          rcases List.mem_append.mp hs with hmem | hmem
          · exact h2 s hmem
          · exact absurd (List.mem_singleton.mp hmem) hss
      · intro s
        by_cases hss : s = s0
        · subst hss
          have : s ∉ st.curToks := fun hmem => (h2 s hmem) hl
          have hz : st.curToks.count s = 0 := List.count_eq_zero.mpr this
          simp [List.count_append, List.count_singleton', hz]
        · simp [List.count_append, List.count_singleton', hss]
          exact h3 s

theorem foldl_findOrAdd_inv :
    ∀ (reqs : List ℕ) (st : LookupFrame),
      (∀ s i, st.lookup s = some i → st.curToks[i]? = some s) →
      (∀ s, s ∈ st.curToks → st.lookup s ≠ none) →
      (∀ s, st.curToks.count s ≤ 1) →
      (∀ s i, (reqs.foldl (fun st2 s2 => (findOrAddToken st2 s2).1) st).lookup s = some i →
        (reqs.foldl (fun st2 s2 => (findOrAddToken st2 s2).1) st).curToks[i]? = some s) ∧
      (∀ s, (reqs.foldl (fun st2 s2 => (findOrAddToken st2 s2).1) st).curToks.count s ≤ 1) := by
  intro reqs
  induction reqs with
  | nil => intro st h1 h2 h3; exact ⟨h1, h3⟩
  | cons r rest ih =>
      intro st h1 h2 h3
      rw [List.foldl_cons]
      have h := findOrAddToken_preserves_inv st h1 h2 h3 r
      exact ih (findOrAddToken st r).1 h.1 h.2.1 h.2.2

/-- C4: within one frame, `cur_toks` holds at most one TokenState per graph
state: in the linearized model of the per-slot compare-and-swap of
`_find_or_add_token_arc`, only the CAS winner pushes a TokenState for a
newly activated state, the recorded index always points back at that very
TokenState, and a caller that finds a recorded index reuses it without
pushing. -/
theorem c4_unique_tokenstate_per_state :
    ∀ (reqs : List ℕ) (s : ℕ),
      (runFindOrAdd reqs).curToks.count s ≤ 1 ∧
      (∀ i, (runFindOrAdd reqs).lookup s = some i →
        (runFindOrAdd reqs).curToks[i]? = some s) ∧
      (∀ (st : LookupFrame) (i : ℕ), st.lookup s = some i → findOrAddToken st s = (st, i)) := by
  intro reqs s
  have h := foldl_findOrAdd_inv reqs initLookupFrame
    (fun s2 i h => by simp [initLookupFrame] at h)
    (fun s2 h => by simp [initLookupFrame] at h)
    (fun s2 => by simp [initLookupFrame])
  exact ⟨h.2 s, fun i hi => h.1 s i hi, fun st i hi => by unfold findOrAddToken; rw [hi]⟩

/-- Witness for C4: activating state 3 twice in one frame pushes a single
TokenState, and the recorded lookup index resolves back to state 3. -/
theorem c4_unique_tokenstate_per_state_witness :
    (runFindOrAdd [3, 3]).lookup 3 = some 0 ∧
    (runFindOrAdd [3, 3]).curToks[0]? = some 3 ∧
    (runFindOrAdd [3, 3]).curToks.count 3 ≤ 1 :=
  ⟨rfl, (c4_unique_tokenstate_per_state [3, 3] 3).2.1 0 rfl,
    (c4_unique_tokenstate_per_state [3, 3] 3).1⟩

/-- C2: each slot of `StoreDataByPackIdx` decodes the arc-slot index `k`
from its TokenState's 64-bit pack; when `temp_data_buf_update[k]` is set the
temporary Token is copied into the arena Token bound to the slot,
`mem_update_d[slot] = true` is recorded, and the temporary flag is cleared;
otherwise `mem_update_d[slot] = false` is recorded and nothing else changes;
the loop applies this step to every slot `i` of `0..size` in turn. -/
theorem c2_scatter_by_pack :
    ∀ (tempData : ℕ → Token) (bufSize : ℕ) (st : StoreState) (i : ℕ) (ts : TokenStateM)
      (rest : List TokenStateM),
      (storeDataByPackIdx tempData bufSize st i (ts :: rest) =
        storeDataByPackIdx tempData bufSize (storeStep tempData bufSize st i ts) (i + 1) rest) ∧
      (st.tempUpdated (unpackIdx ts.tokenPack) = true →
        storeStep tempData bufSize st i ts =
          { arena := fun k =>
              if k = clampIdx bufSize ts.tokIdxAllocated then tempData (unpackIdx ts.tokenPack)
              else st.arena k
            tempUpdated := fun k => if k = unpackIdx ts.tokenPack then false else st.tempUpdated k
            memUpdate := fun j => if j = i then true else st.memUpdate j }) ∧
      (st.tempUpdated (unpackIdx ts.tokenPack) = false →
        storeStep tempData bufSize st i ts =
          { st with memUpdate := fun j => if j = i then false else st.memUpdate j }) := by
  intro tempData bufSize st i ts rest
  refine ⟨rfl, ?_, ?_⟩
  · intro h
    simp only [storeStep, h, if_true, ite_true]
  · intro h
    simp only [storeStep, h, Bool.false_eq_true, if_false, ite_false]

/-- Witness for C2: a slot whose pack decodes to arc-slot 0 with the
temporary flag set copies the temporary Token into the arena slot bound to
`tok_idx_allocated = 2`, records `updated = true`, and clears the flag. -/
theorem c2_scatter_by_pack_witness :
    (⟨fun _ => Token.mkToken (Fl.fin 0) 0 none, fun k => decide (k = 0), fun _ => false⟩ :
        StoreState).tempUpdated (unpackIdx 0) = true ∧
    storeStep (fun _ => Token.mkToken (Fl.fin 1) 2 none) 4
        ⟨fun _ => Token.mkToken (Fl.fin 0) 0 none, fun k => decide (k = 0), fun _ => false⟩
        0 ⟨5, 2, 0⟩ =
      { arena := fun k =>
          if k = clampIdx 4 (⟨5, 2, 0⟩ : TokenStateM).tokIdxAllocated
          then (fun _ => Token.mkToken (Fl.fin 1) 2 none) (unpackIdx 0)
          else (⟨fun _ => Token.mkToken (Fl.fin 0) 0 none, fun k => decide (k = 0),
            fun _ => false⟩ : StoreState).arena k
        tempUpdated := fun k => if k = unpackIdx 0 then false else decide (k = 0)
        memUpdate := fun j => if j = 0 then true else false } :=
  ⟨rfl,
    (c2_scatter_by_pack (fun _ => Token.mkToken (Fl.fin 1) 2 none) 4
      ⟨fun _ => Token.mkToken (Fl.fin 0) 0 none, fun k => decide (k = 0), fun _ => false⟩
      0 ⟨5, 2, 0⟩ []).2.1 rfl⟩

theorem foldl_append_filter_map {α β : Type} (p : α → Bool) (g : α → β) :
    ∀ (arcs : List α) (out : List β),
      arcs.foldl (fun acc l => if p l then acc ++ [g l] else acc) out =
        out ++ (arcs.filter p).map g := by
  intro arcs
  induction arcs with
  | nil => intro out; simp
  | cons a rest ih =>
      intro out
      rw [List.foldl_cons]
      by_cases h : p a
      · rw [if_pos h, ih]
        simp [List.filter_cons, h]
      · rw [if_neg h, ih]
        simp [List.filter_cons, h]

theorem aggregatePass_filter (il ol : ℕ → ℤ) (w : ℕ → Fl) (beam : ℚ) (frame : ℕ)
    (s : PruneState) (arcs : List LatLinkCompact) :
    aggregatePass il ol w beam frame s arcs =
      (arcs.filter (arcSurvives w beam s)).map (explodeArc il ol w frame) := by
  have heq : aggregatePass il ol w beam frame s arcs =
      arcs.foldl
        (fun out l => if arcSurvives w beam s l then out ++ [explodeArc il ol w frame l] else out)
        [] := rfl
  rw [heq, foldl_append_filter_map]
  simp

/-- C1: during back-pruning of frame t, with the previous token read from
frame t-1 for an emitting arc and from frame t otherwise, an arc survives —
its (possibly clamped) link extra cost is min-ed into the previous token's
`extra_cost` in the update loop, and it is appended as an exploded LatLink
in the aggregate pass — exactly when
`link_extra = next.extra_cost + (prev.cost + arc.acoustic +
graph_weight[arc_id] - next.cost)` is not NaN and is at most `lattice_beam`;
a NaN link extra is skipped, and a skipped arc changes nothing. -/
theorem c1_backprune_arc_survival :
    ∀ (il ol : ℕ → ℤ) (w : ℕ → Fl) (beam : ℚ) (frame : ℕ) (s : PruneState)
      (arcs : List LatLinkCompact) (l : LatLinkCompact),
      (arcSurvives w beam s l =
        (!(linkExtraCost w s l).isNan && (linkExtraCost w s l).leB (Fl.fin beam))) ∧
      ((linkExtraCost w s l).isNan = true → arcSurvives w beam s l = false) ∧
      (aggregatePass il ol w beam frame s arcs =
        (arcs.filter (arcSurvives w beam s)).map (explodeArc il ol w frame)) ∧
      (arcSurvives w beam s l = false → pruneArcUpdate w beam s l = (s, false)) ∧
      (arcSurvives w beam s l = true → l.prevTokId < slabLen s (!l.isEmit) →
        extraAt (pruneArcUpdate w beam s l).1 (!l.isEmit) l.prevTokId =
          (let le := linkExtraCost w s l
           let le2 := if le.ltB (Fl.fin (-1)) then Fl.fin (beam / 2) else le
           if le2.ltB (extraAt s (!l.isEmit) l.prevTokId) then le2
           else extraAt s (!l.isEmit) l.prevTokId)) := by
  intro il ol w beam frame s arcs l
  refine ⟨rfl, ?_, aggregatePass_filter il ol w beam frame s arcs, ?_, ?_⟩
  · intro h
    simp [arcSurvives, h]
  · intro h
    have h2 : (!(linkExtraCost w s l).isNan && (linkExtraCost w s l).leB (Fl.fin beam)) =
      false := h
    simp only [pruneArcUpdate, h2, Bool.false_eq_true, if_false, ite_false]
  · intro h hr
    have h2 : (!(linkExtraCost w s l).isNan && (linkExtraCost w s l).leB (Fl.fin beam)) =
      true := h
    simp only [pruneArcUpdate, h2, if_true, ite_true]
    split <;> split
    · dsimp only
      rw [getTok_setExtra, if_pos ⟨rfl, rfl, hr⟩]
    · rfl
    · dsimp only
      rw [getTok_setExtra, if_pos ⟨rfl, rfl, hr⟩]
    · rfl

/-- Witness for C1: a concrete emitting arc with link extra cost 0 survives
and its extra cost is min-ed into the frame-(t-1) token, while a NaN
acoustic cost makes the arc change nothing. -/
theorem c1_backprune_arc_survival_witness :
    arcSurvives (fun _ => Fl.fin 1) 1
      ⟨[⟨Fl.fin 0, 0, Fl.fin 3⟩], [⟨Fl.fin 1, 1, Fl.fin 0⟩]⟩ ⟨0, 0, true, Fl.fin 0, 0⟩ = true ∧
    extraAt (pruneArcUpdate (fun _ => Fl.fin 1) 1
        ⟨[⟨Fl.fin 0, 0, Fl.fin 3⟩], [⟨Fl.fin 1, 1, Fl.fin 0⟩]⟩ ⟨0, 0, true, Fl.fin 0, 0⟩).1
        (!(⟨0, 0, true, Fl.fin 0, 0⟩ : LatLinkCompact).isEmit)
        (⟨0, 0, true, Fl.fin 0, 0⟩ : LatLinkCompact).prevTokId =
      (let le := linkExtraCost (fun _ => Fl.fin 1)
        ⟨[⟨Fl.fin 0, 0, Fl.fin 3⟩], [⟨Fl.fin 1, 1, Fl.fin 0⟩]⟩ ⟨0, 0, true, Fl.fin 0, 0⟩
       let le2 := if le.ltB (Fl.fin (-1)) then Fl.fin (1 / 2) else le
       if le2.ltB (extraAt ⟨[⟨Fl.fin 0, 0, Fl.fin 3⟩], [⟨Fl.fin 1, 1, Fl.fin 0⟩]⟩
            (!(⟨0, 0, true, Fl.fin 0, 0⟩ : LatLinkCompact).isEmit)
            (⟨0, 0, true, Fl.fin 0, 0⟩ : LatLinkCompact).prevTokId) then le2
       else extraAt ⟨[⟨Fl.fin 0, 0, Fl.fin 3⟩], [⟨Fl.fin 1, 1, Fl.fin 0⟩]⟩
            (!(⟨0, 0, true, Fl.fin 0, 0⟩ : LatLinkCompact).isEmit)
            (⟨0, 0, true, Fl.fin 0, 0⟩ : LatLinkCompact).prevTokId) ∧
    pruneArcUpdate (fun _ => Fl.fin 1) 1
      ⟨[⟨Fl.fin 0, 0, Fl.fin 3⟩], [⟨Fl.fin 1, 1, Fl.fin 0⟩]⟩ ⟨0, 0, true, Fl.nan, 0⟩ =
      (⟨[⟨Fl.fin 0, 0, Fl.fin 3⟩], [⟨Fl.fin 1, 1, Fl.fin 0⟩]⟩, false) := by
  refine ⟨?_, ?_, ?_⟩
  · norm_num [arcSurvives, linkExtraCost, getTok, Fl.add, Fl.sub, Fl.neg, Fl.isNan, Fl.leB]
  · exact (c1_backprune_arc_survival (fun _ => 0) (fun _ => 0) (fun _ => Fl.fin 1) 1 0
        ⟨[⟨Fl.fin 0, 0, Fl.fin 3⟩], [⟨Fl.fin 1, 1, Fl.fin 0⟩]⟩ [] ⟨0, 0, true, Fl.fin 0, 0⟩).2.2.2.2
      (by norm_num [arcSurvives, linkExtraCost, getTok, Fl.add, Fl.sub, Fl.neg, Fl.isNan, Fl.leB])
      (by norm_num [slabLen])
  · exact (c1_backprune_arc_survival (fun _ => 0) (fun _ => 0) (fun _ => Fl.fin 1) 1 0
        ⟨[⟨Fl.fin 0, 0, Fl.fin 3⟩], [⟨Fl.fin 1, 1, Fl.fin 0⟩]⟩ [] ⟨0, 0, true, Fl.nan, 0⟩).2.2.2.1
      (by norm_num [arcSurvives, linkExtraCost, getTok, Fl.add, Fl.sub, Fl.neg, Fl.isNan])

theorem foldr_min_append (l1 l2 : List (WithTop ℚ)) :
    (l1 ++ l2).foldr min ⊤ = min (l1.foldr min ⊤) (l2.foldr min ⊤) := by
  induction l1 with
  | nil => simp
  | cons x l ih => simp [ih, min_assoc]

theorem foldl_min_eq (l : List (WithTop ℚ)) :
    ∀ a : WithTop ℚ, l.foldl min a = min a (l.foldr min ⊤) := by
  induction l with
  | nil => intro a; simp
  | cons x l ih =>
      intro a
      rw [List.foldl_cons, ih, List.foldr_cons, ← min_assoc]

theorem tokenFold_min (p : CutoffParams) (n : ℕ) :
    ∀ (toks : List PrevTok) (acc : WithTop ℚ),
      toks.foldl (tokenLocalCutoff p n) acc =
        min acc
          (((toks.filter fun t => !skippedTok p n t).flatMap fun t =>
              (arcRange p t.state).map fun j => ((emitTotal p t j : ℚ) : WithTop ℚ)).foldr
            min ⊤) := by
  intro toks
  induction toks with
  | nil => intro acc; simp
  | cons t rest ih =>
      intro acc
      rw [List.foldl_cons]
      by_cases h : skippedTok p n t
      · rw [ih]
        simp [tokenLocalCutoff, h, List.filter_cons]
      · have harc : tokenLocalCutoff p n acc t =
            min acc (((arcRange p t.state).map fun j =>
              ((emitTotal p t j : ℚ) : WithTop ℚ)).foldr min ⊤) := by
          rw [tokenLocalCutoff, if_neg (by simp [h]), ← List.foldl_map, foldl_min_eq]
        rw [ih, harc]
        rw [List.filter_cons, if_pos (by simp [h]), List.flatMap_cons, foldr_min_append,
          min_assoc]

/-- C3 counterexample: at frame 1 with `size(prev_toks) > max_active`, the
code still skips source tokens with cost above the (stale) `cutoff_prev` —
the skip guard has no frame condition — so the computed cutoff differs from
the claim-shaped cutoff that skips only when the frame exceeds 1. -/
theorem c3_counterexample :
    findBestCutoff ⟨fun s => s, fun _ => 0, fun _ => 0, fun _ => 0, 0, 5, 0, 1⟩
        [⟨0, 10⟩] ⊤ = ⊤ ∧
    findBestCutoffClaimC3 ⟨fun s => s, fun _ => 0, fun _ => 0, fun _ => 0, 0, 5, 0, 1⟩
        [⟨0, 10⟩] ⊤ = ((10 : ℚ) : WithTop ℚ) ∧
    findBestCutoff ⟨fun s => s, fun _ => 0, fun _ => 0, fun _ => 0, 0, 5, 0, 1⟩
        [⟨0, 10⟩] ⊤ ≠
      findBestCutoffClaimC3 ⟨fun s => s, fun _ => 0, fun _ => 0, fun _ => 0, 0, 5, 0, 1⟩
        [⟨0, 10⟩] ⊤ := by
  refine ⟨?_, ?_, ?_⟩
  · norm_num [findBestCutoff, tokenLocalCutoff, skippedTok]
  · norm_num [findBestCutoffClaimC3, skippedTokClaimC3, arcRange, emitTotal, List.range']
  · norm_num [findBestCutoff, findBestCutoffClaimC3, tokenLocalCutoff, skippedTok,
      skippedTokClaimC3, arcRange, emitTotal, List.range']

/-- C3 amended: the Phase B cutoff equals the minimum, together with its
incoming value, of `prev.cost + arc.weight + acoustic(arc.ilabel) + beam`
over every non-skipped source token and every emitting out-arc; the
histogram-derived `cutoff_prev` is computed exactly when
`size(prev_toks) > max_active` and the frame exceeds 1; but a source token
with cost above `cutoff_prev` is skipped (in Phase A and Phase B alike)
whenever `size(prev_toks) > max_active`, with no frame condition. -/
theorem c3_cutoff_minimum_and_skip :
    (∀ (p : CutoffParams) (prevToks : List PrevTok) (cutoff0 : WithTop ℚ),
      findBestCutoff p prevToks cutoff0 =
        min cutoff0
          (((prevToks.filter fun t => !skippedTok p prevToks.length t).flatMap fun t =>
              (arcRange p t.state).map fun j => ((emitTotal p t j : ℚ) : WithTop ℚ)).foldr
            min ⊤)) ∧
    (∀ (p : CutoffParams) (n : ℕ),
      histogramPrevComputed p n = true ↔ n > p.maxActive ∧ p.frame > 1) ∧
    (∀ (p : CutoffParams) (n : ℕ) (t : PrevTok),
      skippedTok p n t = true ↔ n > p.maxActive ∧ t.cost > p.cutoffPrev) := by
  refine ⟨?_, ?_, ?_⟩
  · intro p prevToks cutoff0
    rw [findBestCutoff, tokenFold_min]
    simp
  · intro p n
    simp [histogramPrevComputed]
  · intro p n t
    simp [skippedTok]

end CudaLatticeDecoder
